import Mathlib

/-!
Verification of the cross-exchange arbitrage system.

This file gives a shallow embedding, in Lean 4, of the core components of the
`cross-exchange-arbitrage` Rust repository: the arbitrage-opportunity
detectors (`src/strategy/arbitrage.rs`, `src/strategy/futures_arbitrage.rs`),
the live-trading executor (`src/trading/live_trading.rs`) and the dry-run
execution simulator (`src/trading/dry_run.rs`), together with theorems about
their behaviour.

Modelling conventions:
  * `f64` prices, quantities and fees are embedded as exact rationals `ℚ`;
    `u64`/`u32` counters as `ℕ`.
  * Hash maps are embedded as association lists with replace-on-insert
    semantics.
  * Randomised quantities (slippage draws, fill draws) and the results of
    venue-connector calls are passed in explicitly as oracle arguments.
  * Wall-clock fields (timestamps, latency averages, uptime) are omitted:
    no theorem below concerns them.
-/

/-- The two venues of the system (`connectors::Exchange`). -/
inductive Exchange where
  | Binance
  | Bybit
deriving DecidableEq, Repr

/-- Order side (`connectors::OrderSide`). -/
inductive OrderSide where
  | Buy
  | Sell
deriving DecidableEq, Repr

/-- Time in force (`connectors::TimeInForce`); `GTX` is post-only. -/
inductive TimeInForce where
  | GTC
  | IOC
  | FOK
  | GTX
deriving DecidableEq, Repr

/-- Order status (`connectors::OrderStatus`). -/
inductive OrderStatus where
  | New
  | PartiallyFilled
  | Filled
  | Canceled
  | Rejected
  | Expired
deriving DecidableEq, Repr

/-- A limit order (`connectors::LimitOrder`). -/
structure LimitOrder where
  symbol : String
  side : OrderSide
  quantity : ℚ
  price : ℚ
  time_in_force : TimeInForce
  client_order_id : Option String
deriving DecidableEq, Repr

/-- A venue order response (`connectors::OrderResponse`); the timestamp field
is omitted (wall clock). -/
structure OrderResponse where
  order_id : String
  client_order_id : Option String
  symbol : String
  side : OrderSide
  quantity : ℚ
  price : ℚ
  status : OrderStatus
  filled_quantity : ℚ
  average_price : Option ℚ
deriving DecidableEq, Repr

/-- The error taxonomy of `ArbitrageError` in `src/lib.rs` (the variants the
modelled code paths produce). -/
inductive ArbErr where
  | configErr (msg : String)
  | connection (msg : String)
  | trading (msg : String)
  | riskManagement (msg : String)
  | timeout (msg : String)
deriving DecidableEq, Repr

/-- Modelled from the spec: the `data` module (`data::OrderBook`) is declared
in `src/lib.rs` but its source is not in the tree.  Per spec §3, an order
book is a per-symbol ordered map of price → quantity for bids (best = highest
price) and asks (best = lowest price); a zero-quantity level removes that
price point, so stored levels carry positive quantity.  We embed each side as
an association list of (price, quantity) levels. -/
structure OrderBook where
  symbol : String
  bids : List (ℚ × ℚ)
  asks : List (ℚ × ℚ)
deriving DecidableEq, Repr

/-- Modelled from the spec: `OrderBook::best_bid` — the highest bid price. -/
def OrderBook.best_bid (b : OrderBook) : Option ℚ :=
  (b.bids.map Prod.fst).max?

/-- Modelled from the spec: `OrderBook::best_ask` — the lowest ask price. -/
def OrderBook.best_ask (b : OrderBook) : Option ℚ :=
  (b.asks.map Prod.fst).min?

/-- Modelled from the spec: `OrderBook::best_bid_quantity` — the quantity
resting at the best bid. -/
def OrderBook.best_bid_quantity (b : OrderBook) : Option ℚ :=
  b.best_bid.bind fun p => (b.bids.find? fun l => l.1 == p).map Prod.snd

/-- Modelled from the spec: `OrderBook::best_ask_quantity` — the quantity
resting at the best ask. -/
def OrderBook.best_ask_quantity (b : OrderBook) : Option ℚ :=
  b.best_ask.bind fun p => (b.asks.find? fun l => l.1 == p).map Prod.snd

/-- Rust `f64::round`: round half away from zero. -/
def rustRound (x : ℚ) : ℤ :=
  if 0 ≤ x then ⌊x + 1 / 2⌋ else ⌈x - 1 / 2⌉

/-- Rust `f64::abs`, written out so that concrete runs evaluate by
`decide`. -/
def ratAbs (x : ℚ) : ℚ :=
  if x < 0 then -x else x

/-- `config::StrategyConfig` (the fields the modelled code reads). -/
structure StrategyConfig where
  symbol : String
  min_spread_bps : ℕ
  max_position_size : ℚ
deriving DecidableEq, Repr

/-- `config::ExecutionConfig` (the fields the modelled code reads). -/
structure ExecutionConfigMain where
  order_timeout_ms : ℕ
  slippage_tolerance : ℚ
  min_order_size : ℚ
  max_retry_attempts : ℕ
deriving DecidableEq, Repr

/-- `config::ArbitrageConfig` restricted to the sections the modelled code
reads. -/
structure ArbitrageConfig where
  strategy : StrategyConfig
  execution : ExecutionConfigMain
deriving DecidableEq, Repr

/-- `strategy::arbitrage::ArbitrageOpportunity`; the detection timestamp is
omitted (wall clock). -/
structure ArbitrageOpportunity where
  symbol : String
  buy_exchange : Exchange
  sell_exchange : Exchange
  buy_price : ℚ
  sell_price : ℚ
  quantity : ℚ
  spread_bps : ℚ
  expected_profit : ℚ
deriving DecidableEq, Repr

/-- First branch of `ArbitrageStrategy::detect_opportunities`
(`arbitrage.rs:229-255`): buy on Binance, sell on Bybit, entered when the
Bybit best bid exceeds the Binance best ask. -/
def spotOpportunityBuyBinance (cfg : ArbitrageConfig) (binance_book bybit_book : OrderBook) :
    List ArbitrageOpportunity :=
  match binance_book.best_ask, bybit_book.best_bid with
  | some binance_ask, some bybit_bid =>
    if bybit_bid > binance_ask then
      let spread_bps : ℚ := (rustRound ((bybit_bid - binance_ask) / binance_ask * 10000) : ℤ)
      if spread_bps ≥ (cfg.strategy.min_spread_bps : ℚ) then
        let quantity :=
          min (min ((binance_book.best_ask_quantity).getD 0) ((bybit_book.best_bid_quantity).getD 0))
            cfg.strategy.max_position_size
        if quantity > cfg.execution.min_order_size then
          [{ symbol := cfg.strategy.symbol
             buy_exchange := .Binance
             sell_exchange := .Bybit
             buy_price := binance_ask
             sell_price := bybit_bid
             quantity := quantity
             spread_bps := spread_bps
             expected_profit := (bybit_bid - binance_ask) * quantity }]
        else []
      else []
    else []
  | _, _ => []

/-- Second branch of `ArbitrageStrategy::detect_opportunities`
(`arbitrage.rs:258-284`): buy on Bybit, sell on Binance, entered when the
Binance best bid exceeds the Bybit best ask. -/
def spotOpportunityBuyBybit (cfg : ArbitrageConfig) (binance_book bybit_book : OrderBook) :
    List ArbitrageOpportunity :=
  match bybit_book.best_ask, binance_book.best_bid with
  | some bybit_ask, some binance_bid =>
    if binance_bid > bybit_ask then
      let spread_bps : ℚ := (rustRound ((binance_bid - bybit_ask) / bybit_ask * 10000) : ℤ)
      if spread_bps ≥ (cfg.strategy.min_spread_bps : ℚ) then
        let quantity :=
          min (min ((bybit_book.best_ask_quantity).getD 0) ((binance_book.best_bid_quantity).getD 0))
            cfg.strategy.max_position_size
        if quantity > cfg.execution.min_order_size then
          [{ symbol := cfg.strategy.symbol
             buy_exchange := .Bybit
             sell_exchange := .Binance
             buy_price := bybit_ask
             sell_price := binance_bid
             quantity := quantity
             spread_bps := spread_bps
             expected_profit := (binance_bid - bybit_ask) * quantity }]
        else []
      else []
    else []
  | _, _ => []

/-- `ArbitrageStrategy::detect_opportunities` (`arbitrage.rs:217-309`): given
the stored Binance and Bybit books for the configured symbol, evaluate both
cross-venue scenarios and collect the emitted opportunities in order. -/
def detect_opportunities (cfg : ArbitrageConfig) (binance_book bybit_book : Option OrderBook) :
    List ArbitrageOpportunity :=
  match binance_book, bybit_book with
  | some bb, some yb => spotOpportunityBuyBinance cfg bb yb ++ spotOpportunityBuyBybit cfg bb yb
  | _, _ => []

/-- Whether the pair of books is crossed in the direction that triggers the
buy-on-Binance branch: Bybit best bid strictly above Binance best ask. -/
def crossedBuyBinance (binance_book bybit_book : OrderBook) : Bool :=
  match binance_book.best_ask, bybit_book.best_bid with
  | some a, some b => decide (b > a)
  | _, _ => false

/-- `strategy::futures_arbitrage::FuturesArbitrageOpportunity`; the detection
timestamp is omitted (wall clock). -/
structure FuturesArbitrageOpportunity where
  symbol : String
  maker_exchange : Exchange
  taker_exchange : Exchange
  maker_side : OrderSide
  taker_side : OrderSide
  maker_price : ℚ
  taker_price : ℚ
  quantity : ℚ
  spread_bps : ℚ
  expected_profit : ℚ
  maker_fee : ℚ
  taker_fee : ℚ
  risk_score : ℚ
deriving DecidableEq, Repr

/-- `FuturesArbitrageStrategy::calculate_risk_score`
(`futures_arbitrage.rs:343-364`). -/
def calculate_risk_score (spread_bps quantity : ℚ) : ℚ :=
  let r1 : ℚ := if spread_bps < 10 then 30 else if spread_bps < 20 then 15 else 0
  let r2 : ℚ := if quantity > 1 then 20 else if quantity > 1 / 2 then 10 else 0
  min (r1 + r2 + 10) 100

/-- Scenario 1 of `FuturesArbitrageStrategy::analyze_maker_taker_opportunity`
(`futures_arbitrage.rs:255-294`): sell on Bybit (maker), buy on Binance
(taker), entered when the Bybit best bid exceeds the Binance best ask. -/
def futuresScenarioMakerSell (cfg : ArbitrageConfig) (symbol : String)
    (maker_book taker_book : OrderBook) : List FuturesArbitrageOpportunity :=
  match maker_book.best_bid, taker_book.best_ask with
  | some bybit_bid, some binance_ask =>
    if bybit_bid > binance_ask then
      let spread := bybit_bid - binance_ask
      let spread_bps : ℚ := (rustRound (spread / binance_ask * 10000) : ℤ)
      if spread_bps ≥ (cfg.strategy.min_spread_bps : ℚ) then
        let quantity :=
          min (min ((maker_book.best_bid_quantity).getD 0) ((taker_book.best_ask_quantity).getD 0))
            cfg.strategy.max_position_size
        if quantity > cfg.execution.min_order_size then
          let maker_fee : ℚ := -(25 / 100000)
          let taker_fee : ℚ := 4 / 10000
          let maker_rebate := bybit_bid * quantity * ratAbs maker_fee
          let taker_cost := binance_ask * quantity * taker_fee
          let expected_profit := spread * quantity + maker_rebate - taker_cost
          if expected_profit > 0 then
            [{ symbol := symbol
               maker_exchange := .Bybit
               taker_exchange := .Binance
               maker_side := .Sell
               taker_side := .Buy
               maker_price := bybit_bid
               taker_price := binance_ask
               quantity := quantity
               spread_bps := spread_bps
               expected_profit := expected_profit
               maker_fee := maker_fee
               taker_fee := taker_fee
               risk_score := calculate_risk_score spread_bps quantity }]
          else []
        else []
      else []
    else []
  | _, _ => []

/-- Scenario 2 of `FuturesArbitrageStrategy::analyze_maker_taker_opportunity`
(`futures_arbitrage.rs:298-337`): buy on Bybit (maker), sell on Binance
(taker), entered when the Binance best bid exceeds the Bybit best ask. -/
def futuresScenarioMakerBuy (cfg : ArbitrageConfig) (symbol : String)
    (maker_book taker_book : OrderBook) : List FuturesArbitrageOpportunity :=
  match maker_book.best_ask, taker_book.best_bid with
  | some bybit_ask, some binance_bid =>
    if binance_bid > bybit_ask then
      let spread := binance_bid - bybit_ask
      let spread_bps : ℚ := (rustRound (spread / bybit_ask * 10000) : ℤ)
      if spread_bps ≥ (cfg.strategy.min_spread_bps : ℚ) then
        let quantity :=
          min (min ((maker_book.best_ask_quantity).getD 0) ((taker_book.best_bid_quantity).getD 0))
            cfg.strategy.max_position_size
        if quantity > cfg.execution.min_order_size then
          let maker_fee : ℚ := -(25 / 100000)
          let taker_fee : ℚ := 4 / 10000
          let maker_rebate := bybit_ask * quantity * ratAbs maker_fee
          let taker_cost := binance_bid * quantity * taker_fee
          let expected_profit := spread * quantity + maker_rebate - taker_cost
          if expected_profit > 0 then
            [{ symbol := symbol
               maker_exchange := .Bybit
               taker_exchange := .Binance
               maker_side := .Buy
               taker_side := .Sell
               maker_price := bybit_ask
               taker_price := binance_bid
               quantity := quantity
               spread_bps := spread_bps
               expected_profit := expected_profit
               maker_fee := maker_fee
               taker_fee := taker_fee
               risk_score := calculate_risk_score spread_bps quantity }]
          else []
        else []
      else []
    else []
  | _, _ => []

/-- `FuturesArbitrageStrategy::analyze_maker_taker_opportunity`
(`futures_arbitrage.rs:245-340`): both maker/taker scenarios for one symbol,
in source order. -/
def analyze_maker_taker_opportunity (cfg : ArbitrageConfig) (symbol : String)
    (maker_book taker_book : OrderBook) : List FuturesArbitrageOpportunity :=
  futuresScenarioMakerSell cfg symbol maker_book taker_book ++
    futuresScenarioMakerBuy cfg symbol maker_book taker_book

/-- The price an emitted futures opportunity sells at: the maker price when
the maker leg is the sell, otherwise the taker price. -/
def FuturesArbitrageOpportunity.sellPrice (o : FuturesArbitrageOpportunity) : ℚ :=
  match o.maker_side with
  | .Sell => o.maker_price
  | .Buy => o.taker_price

/-- The price an emitted futures opportunity buys at: the counterpart of
`sellPrice`. -/
def FuturesArbitrageOpportunity.buyPrice (o : FuturesArbitrageOpportunity) : ℚ :=
  match o.maker_side with
  | .Sell => o.taker_price
  | .Buy => o.maker_price

/-- The maker rebate of an emitted futures opportunity, as the source computes
it: maker notional times the absolute maker fee. -/
def FuturesArbitrageOpportunity.makerRebate (o : FuturesArbitrageOpportunity) : ℚ :=
  o.maker_price * o.quantity * ratAbs o.maker_fee

/-- The taker cost of an emitted futures opportunity: taker notional times the
taker fee. -/
def FuturesArbitrageOpportunity.takerCost (o : FuturesArbitrageOpportunity) : ℚ :=
  o.taker_price * o.quantity * o.taker_fee

/-- `strategy::arbitrage::StrategyStatistics` (wall-clock fields omitted). -/
structure StrategyStatistics where
  opportunities_detected : ℕ
  opportunities_executed : ℕ
  total_pnl : ℚ
  success_rate : ℚ
  avg_spread_bps : ℚ
  total_volume : ℚ
deriving DecidableEq, Repr

/-- `ArbitrageStrategy::update_success_statistics` (`arbitrage.rs:374-387`).
The source unconditionally computes
`success_rate = executed as f64 / detected as f64 * 100.0`; when
`opportunities_detected == 0` this `f64` division by zero produces a
non-finite value, which we model by returning `none`. -/
def update_success_statistics (stats : StrategyStatistics) (opportunity : ArbitrageOpportunity) :
    Option StrategyStatistics :=
  let executed := stats.opportunities_executed + 1
  let total_spread := stats.avg_spread_bps * ((executed - 1 : ℕ) : ℚ) + opportunity.spread_bps
  if stats.opportunities_detected = 0 then none
  else
    some { stats with
      opportunities_executed := executed
      total_pnl := stats.total_pnl + opportunity.expected_profit
      total_volume := stats.total_volume + opportunity.quantity * opportunity.buy_price
      avg_spread_bps := total_spread / (executed : ℚ)
      success_rate := ((executed : ℚ) / (stats.opportunities_detected : ℚ)) * 100 }

/-- `strategy::futures_arbitrage::FuturesArbitrageStats` (wall-clock fields
omitted). -/
structure FuturesArbitrageStats where
  opportunities_detected : ℕ
  opportunities_executed : ℕ
  total_pnl : ℚ
  total_maker_rebates : ℚ
  total_taker_fees : ℚ
  success_rate : ℚ
  avg_spread_bps : ℚ
  total_volume : ℚ
deriving DecidableEq, Repr

/-- `FuturesArbitrageStrategy::update_execution_statistics`
(`futures_arbitrage.rs:431-449`).  As in `update_success_statistics`, the
source divides by `opportunities_detected` with no zero guard; the
`detected == 0` case is modelled as `none`. -/
def update_execution_statistics (stats : FuturesArbitrageStats)
    (opportunity : FuturesArbitrageOpportunity) : Option FuturesArbitrageStats :=
  let executed := stats.opportunities_executed + 1
  let avg :=
    if executed > 1 then
      (stats.avg_spread_bps * ((executed - 1 : ℕ) : ℚ) + opportunity.spread_bps) / (executed : ℚ)
    else opportunity.spread_bps
  if stats.opportunities_detected = 0 then none
  else
    some { stats with
      opportunities_executed := executed
      total_pnl := stats.total_pnl + opportunity.expected_profit
      total_maker_rebates :=
        stats.total_maker_rebates + opportunity.maker_price * opportunity.quantity * ratAbs opportunity.maker_fee
      total_taker_fees :=
        stats.total_taker_fees + opportunity.taker_price * opportunity.quantity * opportunity.taker_fee
      total_volume := stats.total_volume + opportunity.quantity * opportunity.maker_price
      avg_spread_bps := avg
      success_rate := ((executed : ℚ) / (stats.opportunities_detected : ℚ)) * 100 }

/-- `trading::live_trading::Position` (timestamp omitted). -/
structure Position where
  exchange : Exchange
  symbol : String
  size : ℚ
  avg_price : ℚ
  unrealized_pnl : ℚ
deriving DecidableEq, Repr

/-- `trading::live_trading::ExecutionStatistics` (the wall-clock fields
`avg_execution_time_ms` and `last_execution` are omitted). -/
structure ExecutionStatistics where
  total_orders : ℕ
  successful_orders : ℕ
  failed_orders : ℕ
  total_volume : ℚ
  total_fees : ℚ
  success_rate : ℚ
deriving DecidableEq, Repr

/-- The state of `LiveTradingExecutor` relevant to its order path: the
emergency-shutdown flag, the set of venues with a connector, the
active-orders table, the positions map and the execution statistics.  Maps
are embedded as association lists. -/
structure LiveState where
  emergency_shutdown : Bool
  connectors : List Exchange
  active_orders : List (String × Exchange × OrderResponse)
  positions : List (String × Position)
  statistics : ExecutionStatistics
deriving DecidableEq, Repr

/-- The signed net position an order would move its symbol to
(`live_trading.rs:370-378`): current size, plus the quantity for a buy and
minus it for a sell. -/
def new_net_position (positions : List (String × Position)) (order : LimitOrder) : ℚ :=
  let current := ((positions.lookup order.symbol).map Position.size).getD 0
  match order.side with
  | .Buy => current + order.quantity
  | .Sell => current - order.quantity

/-- `LiveTradingExecutor::check_risk_limits` (`live_trading.rs:368-396`). -/
def check_risk_limits (cfg : ArbitrageConfig) (positions : List (String × Position))
    (order : LimitOrder) : Except ArbErr Unit :=
  if ratAbs (new_net_position positions order) > cfg.strategy.max_position_size then
    .error (.riskManagement "Position size exceeds limit")
  else if order.quantity < cfg.execution.min_order_size then
    .error (.riskManagement "Order size below minimum")
  else .ok ()

/-- `LiveTradingExecutor::update_statistics` (`live_trading.rs:540-558`),
restricted to the modelled fields.  `total_orders` is incremented first, so
the success-rate division is by a nonzero count. -/
def live_update_statistics (stats : ExecutionStatistics) (success : Bool)
    (response : OrderResponse) : ExecutionStatistics :=
  let total := stats.total_orders + 1
  if success then
    { stats with
      total_orders := total
      successful_orders := stats.successful_orders + 1
      total_volume := stats.total_volume + response.quantity * response.price
      success_rate := (((stats.successful_orders + 1 : ℕ) : ℚ) / (total : ℚ)) * 100 }
  else
    { stats with
      total_orders := total
      failed_orders := stats.failed_orders + 1
      success_rate := (((stats.successful_orders : ℕ) : ℚ) / (total : ℚ)) * 100 }

/-- Replace-on-insert for the active-orders table (`HashMap::insert`). -/
def insertActiveOrder (orders : List (String × Exchange × OrderResponse))
    (key : String) (value : Exchange × OrderResponse) :
    List (String × Exchange × OrderResponse) :=
  (key, value) :: orders.filter fun e => e.1 ≠ key

/-- Outcome of one `place_order` call: the returned result, the successor
state, and whether the venue connector was actually invoked. -/
structure PlaceOutcome where
  result : Except ArbErr OrderResponse
  state : LiveState
  connector_called : Bool
deriving Repr

/-- `LiveTradingExecutor::place_order` (`live_trading.rs:265-302`).
`connResult` is the oracle outcome of the venue connector call, consulted
only if the call is reached: the emergency-shutdown flag, the risk check and
connector lookup all reject first, without touching the connector or the
coordinator state. -/
def place_order (cfg : ArbitrageConfig) (st : LiveState)
    (connResult : Except ArbErr OrderResponse) (exchange : Exchange) (order : LimitOrder) :
    PlaceOutcome :=
  if st.emergency_shutdown then
    ⟨.error (.trading "System in emergency shutdown"), st, false⟩
  else
    match check_risk_limits cfg st.positions order with
    | .error e => ⟨.error e, st, false⟩
    | .ok _ =>
      if exchange ∈ st.connectors then
        match connResult with
        | .ok response =>
          ⟨.ok response,
            { st with
              active_orders := insertActiveOrder st.active_orders response.order_id (exchange, response)
              statistics := live_update_statistics st.statistics true response },
            true⟩
        | .error e =>
          ⟨.error e,
            { st with statistics := live_update_statistics st.statistics false response0 },
            true⟩
      else ⟨.error (.trading "No connector"), st, false⟩
where
  /-- `OrderResponse::default()` (`live_trading.rs:568-583`), passed to the
  statistics update on a connector failure. -/
  response0 : OrderResponse :=
    ⟨"", none, "", .Buy, 0, 0, .New, 0, none⟩

/-- The result `place_order` produces on attempt `k` of a retry loop, as a
function of the initial state: legitimate because `place_order` never
modifies the fields its own result depends on (shutdown flag, positions,
connectors). -/
def attemptResult (cfg : ArbitrageConfig) (st : LiveState)
    (connResults : ℕ → Except ArbErr OrderResponse) (exchange : Exchange)
    (order : LimitOrder) (k : ℕ) : Except ArbErr OrderResponse :=
  (place_order cfg st (connResults k) exchange order).result

/-- Outcome of `place_order_with_retry`: the returned result (`none` models
the `last_error.unwrap()` panic that fires when `max_retry_attempts == 0`
and the loop body never runs), the final state, the number of `place_order`
attempts made, and the list of back-off sleeps (in ms) performed between
consecutive attempts. -/
structure RetryOutcome where
  result : Option (Except ArbErr OrderResponse)
  finalState : LiveState
  attemptsMade : ℕ
  sleeps_ms : List ℕ
deriving Repr

/-- The retry loop of `LiveTradingExecutor::place_order_with_retry`
(`live_trading.rs:309-321`), over the list of remaining attempt numbers:
return on the first success, otherwise sleep `1000ms × attempt_number` and
move to the next attempt, returning the last error once attempts are
exhausted. -/
def retryGo (cfg : ArbitrageConfig) (connResults : ℕ → Except ArbErr OrderResponse)
    (exchange : Exchange) (order : LimitOrder) :
    List ℕ → LiveState → RetryOutcome
  | [], st => ⟨none, st, 0, []⟩
  | [attempt], st =>
    let po := place_order cfg st (connResults attempt) exchange order
    ⟨some po.result, po.state, 1, []⟩
  | attempt :: next :: rest, st =>
    let po := place_order cfg st (connResults attempt) exchange order
    match po.result with
    | .ok r => ⟨some (.ok r), po.state, 1, []⟩
    | .error _ =>
      let ro := retryGo cfg connResults exchange order (next :: rest) po.state
      ⟨ro.result, ro.finalState, ro.attemptsMade + 1, 1000 * attempt :: ro.sleeps_ms⟩

/-- `LiveTradingExecutor::place_order_with_retry` (`live_trading.rs:305-324`):
run the retry loop over attempts `1..=max_retry_attempts`. -/
def place_order_with_retry (cfg : ArbitrageConfig) (st : LiveState)
    (connResults : ℕ → Except ArbErr OrderResponse) (exchange : Exchange)
    (order : LimitOrder) : RetryOutcome :=
  retryGo cfg connResults exchange order (List.range' 1 cfg.execution.max_retry_attempts) st

/-- `LiveTradingExecutor::cancel_order` (`live_trading.rs:327-351`).
`cancelOk` is the oracle success of the venue cancel call; on success the
order leaves the active-orders table, on failure (or a missing connector)
the state is unchanged and an error is returned.  The connector response
content is irrelevant to every property below, so a canceled-status response
stands in for it. -/
def cancel_order (st : LiveState) (exchange : Exchange) (symbol : String)
    (order_id : String) (cancelOk : String → Bool) :
    Except ArbErr OrderResponse × LiveState :=
  if exchange ∈ st.connectors then
    if cancelOk order_id then
      (.ok ⟨order_id, none, symbol, .Buy, 0, 0, .Canceled, 0, none⟩,
        { st with active_orders := st.active_orders.filter fun e => e.1 ≠ order_id })
    else (.error (.trading "cancel failed"), st)
  else (.error (.trading "No connector"), st)

/-- Observable calls attempted during an emergency shutdown. -/
inductive ShutdownEvent where
  | cancelAttempt (order_id : String)
  | disconnectAttempt (exchange : Exchange)
deriving DecidableEq, Repr

/-- One step of the cancel sweep in `emergency_shutdown`: invoke
`cancel_order` for one tracked order (its failure is logged, not
propagated) and record the attempt. -/
def shutdownCancelStep (cancelOk : String → Bool)
    (acc : LiveState × List ShutdownEvent) (entry : String × Exchange × OrderResponse) :
    LiveState × List ShutdownEvent :=
  let co := cancel_order acc.1 entry.2.1 entry.2.2.symbol entry.1 cancelOk
  (co.2, acc.2 ++ [.cancelAttempt entry.1])

/-- `LiveTradingExecutor::emergency_shutdown` (`live_trading.rs:464-491`):
set the shutdown flag, run a best-effort cancel over a snapshot of the
active-orders table, attempt a disconnect of every connector (`disconnectOk`
gives each call's success; failures are logged and ignored), and return
success. -/
def emergency_shutdown (st : LiveState) (cancelOk : String → Bool)
    (disconnectOk : Exchange → Bool) :
    Except ArbErr Unit × LiveState × List ShutdownEvent :=
  let st1 := { st with emergency_shutdown := true }
  let swept := st1.active_orders.foldl (shutdownCancelStep cancelOk) (st1, [])
  let events := swept.2 ++ st1.connectors.map fun ex =>
    let _ := disconnectOk ex
    ShutdownEvent.disconnectAttempt ex
  (.ok (), swept.1, events)

/-- `trading::dry_run::Portfolio`: symbol positions, currency balances, and
the initial-balance snapshot for the PnL baseline. -/
structure Portfolio where
  positions : List (String × ℚ)
  balances : List (String × ℚ)
  initial_balances : List (String × ℚ)
deriving DecidableEq, Repr

/-- Replace-on-insert for an association-list map (`HashMap::insert`). -/
def upsert : List (String × ℚ) → String → ℚ → List (String × ℚ)
  | [], key, value => [(key, value)]
  | (k, v) :: rest, key, value =>
    if k = key then (key, value) :: rest else (k, v) :: upsert rest key value

/-- `Portfolio::get_position` (`dry_run.rs:41-43`). -/
def Portfolio.get_position (p : Portfolio) (symbol : String) : ℚ :=
  ((p.positions.lookup symbol).getD 0)

/-- `Portfolio::get_balance` (`dry_run.rs:46-48`). -/
def Portfolio.get_balance (p : Portfolio) (currency : String) : ℚ :=
  ((p.balances.lookup currency).getD 0)

/-- `Portfolio::update_position` (`dry_run.rs:51-54`). -/
def Portfolio.update_position (p : Portfolio) (symbol : String) (delta : ℚ) : Portfolio :=
  { p with positions := upsert p.positions symbol (p.get_position symbol + delta) }

/-- `Portfolio::update_balance` (`dry_run.rs:57-60`). -/
def Portfolio.update_balance (p : Portfolio) (currency : String) (delta : ℚ) : Portfolio :=
  { p with balances := upsert p.balances currency (p.get_balance currency + delta) }

/-- `Portfolio::calculate_pnl` (`dry_run.rs:63-82`): the sum of
position × current price over the symbols with a known current price, plus
the change from the initial balance for the cash currencies USDT and USD. -/
def Portfolio.calculate_pnl (p : Portfolio) (current_prices : List (String × ℚ)) : ℚ :=
  let positionPnl := p.positions.foldl
    (fun acc e =>
      match current_prices.lookup e.1 with
      | some price => acc + e.2 * price
      | none => acc)
    0
  let cashPnl := p.balances.foldl
    (fun acc e =>
      if e.1 = "USDT" ∨ e.1 = "USD" then
        acc + (e.2 - (p.initial_balances.lookup e.1).getD 0)
      else acc)
    0
  positionPnl + cashPnl

/-- `trading::dry_run::ExecutionConfig` (the simulator knobs).  The source
field `allow_partial_fills` is named `allow_part_fills` here,
`partial_fill_probability` is `part_fill_probability` and `min_fill_ratio`
is `min_fill_frac`. -/
structure SimExecutionConfig where
  enable_fees : Bool
  maker_fee : ℚ
  taker_fee : ℚ
  simulate_market_impact : Bool
  market_impact_factor : ℚ
  allow_part_fills : Bool
  part_fill_probability : ℚ
  rejection_probability : ℚ
  min_fill_frac : ℚ
deriving DecidableEq, Repr

/-- `ExecutionConfig::default()` (`dry_run.rs:143-158`): fees enabled at
0.1% maker and taker, market impact off, partial fills off, rejection off. -/
def simExecutionConfigDefault : SimExecutionConfig :=
  { enable_fees := true
    maker_fee := 1 / 1000
    taker_fee := 1 / 1000
    simulate_market_impact := false
    market_impact_factor := 1 / 10000
    allow_part_fills := false
    part_fill_probability := 0
    rejection_probability := 0
    min_fill_frac := 1 / 10 }

/-- The random draws one simulated execution consumes, made explicit.  The
slippage draw is sampled by the source from `[0, slippage_tolerance)` and
the rejection draw from `[0, 1)`. -/
structure SimDraws where
  rejection_draw : ℚ
  slippage_draw : ℚ
  part_fill_draw : ℚ
  fill_frac_draw : ℚ
deriving DecidableEq, Repr

/-- The first order book some exchange holds for the symbol (the source
iterates the exchange maps and clamps against the first book found,
`dry_run.rs:401-418`). -/
def findBook : List (Exchange × List (String × OrderBook)) → String → Option OrderBook
  | [], _ => none
  | (_, books) :: rest, symbol =>
    match books.lookup symbol with
    | some b => some b
    | none => findBook rest symbol

/-- `DryRunExecutor::calculate_execution_price` (`dry_run.rs:377-421`):
start from the limit price, move it adversely by the slippage draw (and by
market impact when enabled), then clamp against the best reference price of
the first cached book for the symbol. -/
def calculate_execution_price (cfg : ArbitrageConfig) (sim : SimExecutionConfig)
    (market_data : List (Exchange × List (String × OrderBook))) (order : LimitOrder)
    (slippage_draw : ℚ) : ℚ :=
  let p0 := order.price
  let p1 :=
    if cfg.execution.slippage_tolerance > 0 then
      match order.side with
      | .Buy => p0 * (1 + slippage_draw)
      | .Sell => p0 * (1 - slippage_draw)
    else p0
  let p2 :=
    if sim.simulate_market_impact then
      let impact := order.quantity * sim.market_impact_factor
      match order.side with
      | .Buy => p1 * (1 + impact)
      | .Sell => p1 * (1 - impact)
    else p1
  match findBook market_data order.symbol with
  | some book =>
    match order.side with
    | .Buy => match book.best_ask with | some ask => max p2 ask | none => p2
    | .Sell => match book.best_bid with | some bid => min p2 bid | none => p2
  | none => p2

/-- `DryRunExecutor::calculate_fill_quantity` (`dry_run.rs:423-435`): the
full quantity unless partial fills are enabled and the probability fires, in
which case a draw between `quantity × min_fill_frac` and `quantity`. -/
def calculate_fill_quantity (sim : SimExecutionConfig) (order : LimitOrder)
    (draws : SimDraws) : ℚ :=
  if ¬ sim.allow_part_fills then order.quantity
  else if draws.part_fill_draw < sim.part_fill_probability then draws.fill_frac_draw
  else order.quantity

/-- `DryRunExecutor::calculate_fees` (`dry_run.rs:437-445`): fill notional
times the maker fee for post-only (GTX) orders, the taker fee otherwise. -/
def calculate_fees (sim : SimExecutionConfig) (order : LimitOrder)
    (fill_quantity execution_price : ℚ) : ℚ :=
  let notional := fill_quantity * execution_price
  let rate := if order.time_in_force = TimeInForce.GTX then sim.maker_fee else sim.taker_fee
  notional * rate

/-- `DryRunExecutor::update_portfolio` (`dry_run.rs:447-466`): a buy raises
the symbol position and lowers the USDT balance by notional + fees; a sell
lowers the position and raises the balance by notional − fees. -/
def update_portfolio (p : Portfolio) (order : LimitOrder)
    (fill_quantity execution_price fees : ℚ) : Portfolio :=
  let notional := fill_quantity * execution_price
  match order.side with
  | .Buy =>
    (p.update_position order.symbol fill_quantity).update_balance "USDT" (-(notional + fees))
  | .Sell =>
    (p.update_position order.symbol (-fill_quantity)).update_balance "USDT" (notional - fees)

/-- `trading::dry_run::PerformanceMetrics` (wall-clock fields omitted). -/
structure PerformanceMetrics where
  total_orders : ℕ
  total_volume : ℚ
  success_rate : ℚ
  total_fees : ℚ
deriving DecidableEq, Repr

/-- `DryRunExecutor::update_metrics` (`dry_run.rs:468-482`), restricted to
the modelled fields. -/
def update_metrics (m : PerformanceMetrics) (response : OrderResponse) (fees : ℚ) :
    PerformanceMetrics :=
  let total := m.total_orders + 1
  let filled : ℚ := if response.filled_quantity > 0 then 1 else 0
  { total_orders := total
    total_volume := m.total_volume + response.filled_quantity * response.price
    success_rate := (m.success_rate * ((total - 1 : ℕ) : ℚ) + filled) / (total : ℚ)
    total_fees := m.total_fees + fees }

/-- The state of `DryRunExecutor`: portfolio, cached market data, execution
history, metrics, and the current prices used for PnL. -/
structure SimState where
  portfolio : Portfolio
  market_data : List (Exchange × List (String × OrderBook))
  history : List OrderResponse
  metrics : PerformanceMetrics
  current_prices : List (String × ℚ)
deriving DecidableEq, Repr

/-- `DryRunExecutor::execute_order` (`dry_run.rs:206-273`), with the random
draws explicit and the generated UUID order id replaced by the empty string
(no property below reads it).  Rejection fires when the configured
probability is positive and the draw falls under it; otherwise the fill is
priced, sized, charged fees, applied to the portfolio, recorded in history
and reflected in the metrics. -/
def sim_execute_order (cfg : ArbitrageConfig) (sim : SimExecutionConfig) (st : SimState)
    (order : LimitOrder) (draws : SimDraws) : Except ArbErr (OrderResponse × SimState) :=
  let reject := if sim.rejection_probability ≤ 0 then false
    else decide (draws.rejection_draw < sim.rejection_probability)
  if reject then .error (.trading "Order rejected in simulation")
  else
    let execution_price := calculate_execution_price cfg sim st.market_data order draws.slippage_draw
    let fill_quantity := calculate_fill_quantity sim order draws
    let fees := if sim.enable_fees then calculate_fees sim order fill_quantity execution_price else 0
    let portfolio := update_portfolio st.portfolio order fill_quantity execution_price fees
    let response : OrderResponse :=
      { order_id := ""
        client_order_id := order.client_order_id
        symbol := order.symbol
        side := order.side
        quantity := order.quantity
        price := order.price
        status :=
          if fill_quantity = order.quantity then .Filled
          else if fill_quantity > 0 then .PartiallyFilled
          else .New
        filled_quantity := fill_quantity
        average_price := if fill_quantity > 0 then some execution_price else none }
    .ok (response,
      { st with
        portfolio := portfolio
        history := st.history ++ [response]
        metrics := update_metrics st.metrics response fees })

/-- `DryRunExecutor::get_results().total_pnl` (`dry_run.rs:296-305`). -/
def sim_total_pnl (st : SimState) : ℚ :=
  st.portfolio.calculate_pnl st.current_prices

/-- The initial dry-run portfolio (`dry_run.rs:186-191`): 100000 USDT plus
empty BTC and ETH balances, snapshotted as the PnL baseline. -/
def initialPortfolio : Portfolio :=
  { positions := []
    balances := [("USDT", 100000), ("BTC", 0), ("ETH", 0)]
    initial_balances := [("USDT", 100000), ("BTC", 0), ("ETH", 0)] }

/-- The initial dry-run executor state. -/
def initialSimState : SimState :=
  { portfolio := initialPortfolio
    market_data := []
    history := []
    metrics := { total_orders := 0, total_volume := 0, success_rate := 0, total_fees := 0 }
    current_prices := [] }

/-- A configuration matching the spot-scenario claim and the repository's
test configurations: minimum spread 5 bps, max position 1.0, min order size
0.001, three retry attempts, 0.1% slippage tolerance. -/
def cfgW : ArbitrageConfig :=
  { strategy := { symbol := "BTCUSDT", min_spread_bps := 5, max_position_size := 1 }
    execution :=
      { order_timeout_ms := 5000
        slippage_tolerance := 1 / 1000
        min_order_size := 1 / 1000
        max_retry_attempts := 3 } }

/-- Venue-A (Binance) book of the spot scenario: best bid 50100 × 1.0, best
ask 50200 × 1.0 (not crossed against venue B). -/
def bookA : OrderBook :=
  { symbol := "BTCUSDT", bids := [(50100, 1)], asks := [(50200, 1)] }

/-- Venue-B (Bybit) book of the spot scenario: best bid 49900 × 1.0, best
ask 50000 × 1.0. -/
def bookB : OrderBook :=
  { symbol := "BTCUSDT", bids := [(49900, 1)], asks := [(50000, 1)] }

/-- The single opportunity the spot scenario emits: buy 1.0 on Bybit at
50000, sell on Binance at 50100, spread 20 bps, profit 100. -/
def oppSpotW : ArbitrageOpportunity :=
  { symbol := "BTCUSDT"
    buy_exchange := .Bybit
    sell_exchange := .Binance
    buy_price := 50000
    sell_price := 50100
    quantity := 1
    spread_bps := 20
    expected_profit := 100 }

/-- Maker-venue (Bybit) book for the futures witness: best bid 50100 × 1.0. -/
def makerBookW : OrderBook :=
  { symbol := "BTCUSDT", bids := [(50100, 1)], asks := [(50200, 1)] }

/-- Taker-venue (Binance) book for the futures witness: best ask 50000 × 1.0. -/
def takerBookW : OrderBook :=
  { symbol := "BTCUSDT", bids := [(49900, 1)], asks := [(50000, 1)] }

/-- The opportunity the futures witness emits: maker sell at 50100, taker buy
at 50000, quantity 1, spread 20 bps, profit 100 + 12.525 − 20 = 92.525. -/
def oppFutW : FuturesArbitrageOpportunity :=
  { symbol := "BTCUSDT"
    maker_exchange := .Bybit
    taker_exchange := .Binance
    maker_side := .Sell
    taker_side := .Buy
    maker_price := 50100
    taker_price := 50000
    quantity := 1
    spread_bps := 20
    expected_profit := 100 + 50100 * (25 / 100000) - 50000 * (4 / 10000)
    maker_fee := -(25 / 100000)
    taker_fee := 4 / 10000
    risk_score := 20 }

/-- A strategy-statistics state with 4 detected and 0 executed
opportunities. -/
def statsDetected4 : StrategyStatistics :=
  { opportunities_detected := 4
    opportunities_executed := 0
    total_pnl := 0
    success_rate := 0
    avg_spread_bps := 0
    total_volume := 0 }

/-- A strategy-statistics state with 0 detected opportunities. -/
def statsDetected0 : StrategyStatistics :=
  { statsDetected4 with opportunities_detected := 0 }

/-- Zeroed live execution statistics. -/
def statsLive0 : ExecutionStatistics :=
  { total_orders := 0, successful_orders := 0, failed_orders := 0
    total_volume := 0, total_fees := 0, success_rate := 0 }

/-- The risk-scenario position: an existing long of 0.05 BTCUSDT. -/
def positionW : Position :=
  { exchange := .Binance, symbol := "BTCUSDT", size := 1 / 20, avg_price := 50000
    unrealized_pnl := 0 }

/-- The risk-scenario order: buy 1.0 BTCUSDT, which would move the net
position to 1.05 against a maximum of 1.0. -/
def orderRiskW : LimitOrder :=
  { symbol := "BTCUSDT", side := .Buy, quantity := 1, price := 50000
    time_in_force := .GTC, client_order_id := none }

/-- A live state holding the risk-scenario position, with a Binance
connector, no active orders and a clear shutdown flag. -/
def liveStateRiskW : LiveState :=
  { emergency_shutdown := false
    connectors := [.Binance]
    active_orders := []
    positions := [("BTCUSDT", positionW)]
    statistics := statsLive0 }

/-- An in-flight order response used to populate active-order tables. -/
def respW (oid : String) (_ex : Exchange) : OrderResponse :=
  { order_id := oid, client_order_id := none, symbol := "BTCUSDT", side := .Buy
    quantity := 1 / 10, price := 50000, status := .New, filled_quantity := 0
    average_price := none }

/-- The shutdown-scenario state: two tracked active orders on the two
venues, both connectors present. -/
def liveStateShutdownW : LiveState :=
  { emergency_shutdown := false
    connectors := [.Binance, .Bybit]
    active_orders := [("o1", .Binance, respW "o1" .Binance), ("o2", .Bybit, respW "o2" .Bybit)]
    positions := []
    statistics := statsLive0 }

/-- Cancel oracle for the shutdown scenario: the Binance order's cancel call
fails, the Bybit order's succeeds. -/
def cancelOkW : String → Bool := fun oid => oid == "o2"

/-- A live state with no positions and a Binance connector. -/
def liveStateCleanW : LiveState :=
  { emergency_shutdown := false
    connectors := [.Binance]
    active_orders := []
    positions := []
    statistics := statsLive0 }

/-- A small order well inside the risk limits. -/
def orderSmallW : LimitOrder :=
  { symbol := "BTCUSDT", side := .Buy, quantity := 1 / 10, price := 50000
    time_in_force := .GTC, client_order_id := none }

/-- Connector oracle for the retry witness: the first attempt fails with a
connection error, later attempts succeed. -/
def connResultsW : ℕ → Except ArbErr OrderResponse := fun k =>
  if k = 1 then .error (.connection "stream reset") else .ok (respW "ok1" .Binance)

/-- Connector oracle that always fails (never reached in the risk-rejection
runs that use it). -/
def connResultsErrW : ℕ → Except ArbErr OrderResponse := fun _ =>
  .error (.connection "unreachable")

/-- The buy leg of the dry-run round trip: 0.1 BTCUSDT at 50000. -/
def buyOrderRT : LimitOrder :=
  { symbol := "BTCUSDT", side := .Buy, quantity := 1 / 10, price := 50000
    time_in_force := .GTC, client_order_id := none }

/-- The sell leg of the dry-run round trip: 0.1 BTCUSDT at the higher price
50100. -/
def sellOrderRT : LimitOrder :=
  { symbol := "BTCUSDT", side := .Sell, quantity := 1 / 10, price := 50100
    time_in_force := .GTC, client_order_id := none }

/-- Zero draws: no rejection, zero slippage (a legitimate sample from the
source's `[0, slippage_tolerance)` range), no partial fill. -/
def drawsZero : SimDraws :=
  { rejection_draw := 0, slippage_draw := 0, part_fill_draw := 0, fill_frac_draw := 0 }

/-- Run the round trip `buyOrderRT` then `sellOrderRT` on a fresh simulator
with the default execution knobs and zero draws, returning
(buy fill, buy execution price, sell fill, sell execution price, final
BTCUSDT position, total PnL). -/
def roundTripRun : Option (ℚ × ℚ × ℚ × ℚ × ℚ × ℚ) :=
  match sim_execute_order cfgW simExecutionConfigDefault initialSimState buyOrderRT drawsZero with
  | .error _ => none
  | .ok (r1, st1) =>
    match sim_execute_order cfgW simExecutionConfigDefault st1 sellOrderRT drawsZero with
    | .error _ => none
    | .ok (r2, st2) =>
      some (r1.filled_quantity, (r1.average_price).getD 0,
        r2.filled_quantity, (r2.average_price).getD 0,
        st2.portfolio.get_position "BTCUSDT", sim_total_pnl st2)


/-- Whether an `Except` value is an error (Rust `Result::is_err`). -/
def exceptHasError {ε α : Type _} : Except ε α → Bool
  | .error _ => true
  | .ok _ => false

deriving instance DecidableEq for Except

/-- Claim C4: the live coordinator's risk check errors (with a
RiskManagement error) exactly when the order would push the absolute net
position for its symbol beyond the configured maximum (buy adding the
quantity, sell subtracting it) or when the order quantity is below the
configured minimum, and succeeds otherwise; in particular an order of
quantity 1.0 against an existing 0.05 position and a maximum of 1.0 is
rejected. -/
theorem check_risk_limits_spec :
    (∀ (cfg : ArbitrageConfig) (positions : List (String × Position)) (order : LimitOrder),
      ((∃ m, check_risk_limits cfg positions order = .error (.riskManagement m)) ↔
        (cfg.strategy.max_position_size < ratAbs (new_net_position positions order) ∨
          order.quantity < cfg.execution.min_order_size)) ∧
      (check_risk_limits cfg positions order = .ok () ↔
        (ratAbs (new_net_position positions order) ≤ cfg.strategy.max_position_size ∧
          cfg.execution.min_order_size ≤ order.quantity))) ∧
    ∃ m, check_risk_limits cfgW [("BTCUSDT", positionW)] orderRiskW =
      .error (.riskManagement m) := by
  constructor
  · intro cfg positions order
    unfold check_risk_limits
    split_ifs with h1 h2
    · refine ⟨⟨fun _ => Or.inl h1, fun _ => ⟨_, rfl⟩⟩, ⟨fun h => ?_, fun hc => ?_⟩⟩
      · simp at h
      · exact absurd h1 (not_lt.mpr hc.1)
    · refine ⟨⟨fun _ => Or.inr h2, fun _ => ⟨_, rfl⟩⟩, ⟨fun h => ?_, fun hc => ?_⟩⟩
      · simp at h
      · exact absurd h2 (not_lt.mpr hc.2)
    · refine ⟨⟨fun hm => ?_, fun hc => ?_⟩, ⟨fun _ => ⟨le_of_not_lt h1, le_of_not_lt h2⟩,
        fun _ => rfl⟩⟩
      · obtain ⟨m, hm⟩ := hm; simp at hm
      · rcases hc with ha | hb
        · exact absurd ha (not_lt.mpr (le_of_not_lt h1))
        · exact absurd hb h2
  · refine ⟨"Position size exceeds limit", ?_⟩
    have h : ratAbs (new_net_position [("BTCUSDT", positionW)] orderRiskW) >
        cfgW.strategy.max_position_size := by
      norm_num [new_net_position, ratAbs, positionW, orderRiskW, cfgW]
    simp [check_risk_limits, h]

/-- Witness for claim C4: the concrete 0.05 + 1.0 > 1.0 rejection extracted
from the theorem. -/
theorem check_risk_limits_spec_witness :
    ∃ m, check_risk_limits cfgW [("BTCUSDT", positionW)] orderRiskW =
      .error (.riskManagement m) :=
  check_risk_limits_spec.2

/-- Claim C10 (implicit frame property): when `place_order` rejects because
the emergency-shutdown flag is set or because the risk check fails, the
coordinator state is returned exactly as it was — active orders, statistics
and positions untouched — and the venue connector is never invoked. -/
theorem place_order_rejection_frame (cfg : ArbitrageConfig) (st : LiveState)
    (connResult : Except ArbErr OrderResponse) (exchange : Exchange) (order : LimitOrder)
    (h : st.emergency_shutdown = true ∨
      exceptHasError (check_risk_limits cfg st.positions order) = true) :
    exceptHasError (place_order cfg st connResult exchange order).result = true ∧
    (place_order cfg st connResult exchange order).state = st ∧
    (place_order cfg st connResult exchange order).connector_called = false := by
  unfold place_order
  by_cases hs : st.emergency_shutdown
  · simp [hs, exceptHasError]
  · rcases h with h | h
    · exact absurd h (by simp [hs])
    · cases hR : check_risk_limits cfg st.positions order with
      | error e => simp [hs, hR, exceptHasError]
      | ok u => rw [hR] at h; simp [exceptHasError] at h

/-- Witness for claim C10: the frame property at the concrete risk-rejected
scenario order. -/
theorem place_order_rejection_frame_witness :
    exceptHasError (place_order cfgW liveStateRiskW (connResultsErrW 1) .Binance
      orderRiskW).result = true ∧
    (place_order cfgW liveStateRiskW (connResultsErrW 1) .Binance orderRiskW).state =
      liveStateRiskW ∧
    (place_order cfgW liveStateRiskW (connResultsErrW 1) .Binance
      orderRiskW).connector_called = false :=
  place_order_rejection_frame cfgW liveStateRiskW (connResultsErrW 1) .Binance orderRiskW
    (Or.inr (by
      have h : ratAbs (new_net_position liveStateRiskW.positions orderRiskW) >
          cfgW.strategy.max_position_size := by
        norm_num [new_net_position, ratAbs, positionW, orderRiskW, cfgW, liveStateRiskW]
      simp [check_risk_limits, h, exceptHasError]))

theorem cancel_order_preserves_flag_connectors (s : LiveState) (ex : Exchange)
    (symbol order_id : String) (cancelOk : String → Bool) :
    (cancel_order s ex symbol order_id cancelOk).2.emergency_shutdown = s.emergency_shutdown ∧
    (cancel_order s ex symbol order_id cancelOk).2.connectors = s.connectors := by
  unfold cancel_order
  split_ifs <;> simp

theorem shutdown_sweep_events (cancelOk : String → Bool) :
    ∀ (l : List (String × Exchange × OrderResponse)) (s : LiveState) (evs : List ShutdownEvent),
      (l.foldl (shutdownCancelStep cancelOk) (s, evs)).2 =
        evs ++ l.map fun e => ShutdownEvent.cancelAttempt e.1 := by
  intro l
  induction l with
  | nil => intro s evs; simp
  | cons e t ih =>
    intro s evs
    rw [List.foldl_cons]
    show (t.foldl (shutdownCancelStep cancelOk)
      ((cancel_order s e.2.1 e.2.2.symbol e.1 cancelOk).2,
        evs ++ [ShutdownEvent.cancelAttempt e.1])).2 = _
    rw [ih]
    simp

theorem shutdown_sweep_preserves_flag_connectors (cancelOk : String → Bool) :
    ∀ (l : List (String × Exchange × OrderResponse)) (s : LiveState) (evs : List ShutdownEvent),
      ((l.foldl (shutdownCancelStep cancelOk) (s, evs)).1).emergency_shutdown =
          s.emergency_shutdown ∧
        ((l.foldl (shutdownCancelStep cancelOk) (s, evs)).1).connectors = s.connectors := by
  intro l
  induction l with
  | nil => intro s evs; simp
  | cons e t ih =>
    intro s evs
    rw [List.foldl_cons]
    show ((t.foldl (shutdownCancelStep cancelOk)
      ((cancel_order s e.2.1 e.2.2.symbol e.1 cancelOk).2,
        evs ++ [ShutdownEvent.cancelAttempt e.1])).1).emergency_shutdown = _ ∧ _
    obtain ⟨h1, h2⟩ := ih ((cancel_order s e.2.1 e.2.2.symbol e.1 cancelOk).2)
      (evs ++ [ShutdownEvent.cancelAttempt e.1])
    obtain ⟨g1, g2⟩ := cancel_order_preserves_flag_connectors s e.2.1 e.2.2.symbol e.1 cancelOk
    exact ⟨h1.trans g1, h2.trans g2⟩

/-- Claim C5: for every coordinator state and every pattern of individual
cancel/disconnect failures, `emergency_shutdown` returns success, sets the
shutdown flag, attempts a cancel for every tracked active order and a
disconnect for every connector — later attempts are made regardless of
earlier failures, because each failure is only logged. -/
theorem emergency_shutdown_spec (st : LiveState) (cancelOk : String → Bool)
    (disconnectOk : Exchange → Bool) :
    (emergency_shutdown st cancelOk disconnectOk).1 = .ok () ∧
    (emergency_shutdown st cancelOk disconnectOk).2.1.emergency_shutdown = true ∧
    (∀ e ∈ st.active_orders,
      ShutdownEvent.cancelAttempt e.1 ∈ (emergency_shutdown st cancelOk disconnectOk).2.2) ∧
    (∀ ex ∈ st.connectors,
      ShutdownEvent.disconnectAttempt ex ∈ (emergency_shutdown st cancelOk disconnectOk).2.2) := by
  have hev : (emergency_shutdown st cancelOk disconnectOk).2.2 =
      (st.active_orders.map fun e => ShutdownEvent.cancelAttempt e.1) ++
        st.connectors.map (fun ex => ShutdownEvent.disconnectAttempt ex) := by
    simp only [emergency_shutdown]
    rw [shutdown_sweep_events]
    simp
  refine ⟨rfl, ?_, ?_, ?_⟩
  · show ((({ st with emergency_shutdown := true } : LiveState).active_orders.foldl
      (shutdownCancelStep cancelOk) ({ st with emergency_shutdown := true }, [])).1).emergency_shutdown = true
    rw [(shutdown_sweep_preserves_flag_connectors cancelOk _ _ _).1]
  · intro e he
    rw [hev]
    exact List.mem_append_left _ (List.mem_map_of_mem _ he)
  · intro ex hex
    rw [hev]
    exact List.mem_append_right _ (List.mem_map_of_mem _ hex)

/-- Witness for claim C5: the two-order scenario in which the Binance cancel
fails — shutdown still succeeds and the other order's cancel is attempted. -/
theorem emergency_shutdown_spec_witness :
    (emergency_shutdown liveStateShutdownW cancelOkW (fun _ => true)).1 = .ok () ∧
    (emergency_shutdown liveStateShutdownW cancelOkW (fun _ => true)).2.1.emergency_shutdown =
      true ∧
    ShutdownEvent.cancelAttempt "o1" ∈
      (emergency_shutdown liveStateShutdownW cancelOkW (fun _ => true)).2.2 ∧
    ShutdownEvent.cancelAttempt "o2" ∈
      (emergency_shutdown liveStateShutdownW cancelOkW (fun _ => true)).2.2 :=
  ⟨(emergency_shutdown_spec liveStateShutdownW cancelOkW (fun _ => true)).1,
    (emergency_shutdown_spec liveStateShutdownW cancelOkW (fun _ => true)).2.1,
    (emergency_shutdown_spec liveStateShutdownW cancelOkW (fun _ => true)).2.2.1
      ("o1", .Binance, respW "o1" .Binance) (by simp [liveStateShutdownW]),
    (emergency_shutdown_spec liveStateShutdownW cancelOkW (fun _ => true)).2.2.1
      ("o2", .Bybit, respW "o2" .Bybit) (by simp [liveStateShutdownW])⟩

/-- Counterexample for claim C9: after an execution refresh the stored
success rate is a percentage — with 4 detected and a first execution the
code stores 25, not the claimed quotient 1/4 — and a refresh with zero
detected opportunities performs an unguarded division by zero (modelled as
`none`), so the claimed divide-by-zero guard does not exist. -/
theorem success_rate_claim_counterexample :
    ((update_success_statistics statsDetected4 oppSpotW).map StrategyStatistics.success_rate =
        some 25 ∧
      (25 : ℚ) ≠ 1 / 4) ∧
    update_success_statistics statsDetected0 oppSpotW = none := by
  refine ⟨⟨?_, by norm_num⟩, ?_⟩
  · simp only [update_success_statistics, statsDetected4]
    norm_num
  · simp [update_success_statistics, statsDetected0, statsDetected4]

/-- Claim C9 (amended): on every statistics refresh after an execution with
a nonzero detected count, both strategies store
`success_rate = (executed / detected) × 100` (a percentage, the division
performed unconditionally); no refresh path guards the `detected == 0`
case, which divides by zero. -/
theorem success_rate_percentage_formula :
    (∀ (stats : StrategyStatistics) (opp : ArbitrageOpportunity),
      stats.opportunities_detected ≠ 0 →
      ∃ s, update_success_statistics stats opp = some s ∧
        s.success_rate =
          (((stats.opportunities_executed + 1 : ℕ) : ℚ) /
            (stats.opportunities_detected : ℚ)) * 100) ∧
    (∀ (stats : FuturesArbitrageStats) (opp : FuturesArbitrageOpportunity),
      stats.opportunities_detected ≠ 0 →
      ∃ s, update_execution_statistics stats opp = some s ∧
        s.success_rate =
          (((stats.opportunities_executed + 1 : ℕ) : ℚ) /
            (stats.opportunities_detected : ℚ)) * 100) := by
  constructor
  · intro stats opp h
    simp only [update_success_statistics]
    rw [if_neg h]
    exact ⟨_, rfl, rfl⟩
  · intro stats opp h
    simp only [update_execution_statistics]
    rw [if_neg h]
    exact ⟨_, rfl, rfl⟩

/-- Witness for claim C9 (amended): the percentage formula at the concrete
4-detected statistics state. -/
theorem success_rate_percentage_formula_witness :
    ∃ s, update_success_statistics statsDetected4 oppSpotW = some s ∧
      s.success_rate =
        (((statsDetected4.opportunities_executed + 1 : ℕ) : ℚ) /
          (statsDetected4.opportunities_detected : ℚ)) * 100 :=
  success_rate_percentage_formula.1 statsDetected4 oppSpotW (by decide)

theorem mem_futuresScenarioMakerSell (cfg : ArbitrageConfig) (symbol : String)
    (mb tb : OrderBook) (opp : FuturesArbitrageOpportunity)
    (h : opp ∈ futuresScenarioMakerSell cfg symbol mb tb) :
    opp.maker_side = .Sell ∧
    opp.maker_fee = -(25 / 100000) ∧
    opp.taker_fee = 4 / 10000 ∧
    opp.expected_profit =
      (opp.sellPrice - opp.buyPrice) * opp.quantity + opp.makerRebate - opp.takerCost ∧
    0 < opp.expected_profit ∧
    opp.quantity =
      min (min ((mb.best_bid_quantity).getD 0) ((tb.best_ask_quantity).getD 0))
        cfg.strategy.max_position_size ∧
    cfg.execution.min_order_size < opp.quantity ∧
    ∃ bid ask, mb.best_bid = some bid ∧ tb.best_ask = some ask ∧ ask < bid ∧
      opp.maker_price = bid ∧ opp.taker_price = ask := by
  unfold futuresScenarioMakerSell at h
  cases hb : mb.best_bid with
  | none => rw [hb] at h; simp at h
  | some bid =>
    cases ha : tb.best_ask with
    | none => rw [hb, ha] at h; simp at h
    | some ask =>
      rw [hb, ha] at h
      dsimp only at h
      split_ifs at h with h1 h2 h3 h4 <;>
        first
        | exact absurd h (List.not_mem_nil _)
        | (rw [List.mem_singleton] at h
           subst h
           exact ⟨rfl, rfl, rfl, rfl, h4, rfl, h3, bid, ask, rfl, rfl, h1, rfl, rfl⟩)

theorem mem_futuresScenarioMakerBuy (cfg : ArbitrageConfig) (symbol : String)
    (mb tb : OrderBook) (opp : FuturesArbitrageOpportunity)
    (h : opp ∈ futuresScenarioMakerBuy cfg symbol mb tb) :
    opp.maker_side = .Buy ∧
    opp.maker_fee = -(25 / 100000) ∧
    opp.taker_fee = 4 / 10000 ∧
    opp.expected_profit =
      (opp.sellPrice - opp.buyPrice) * opp.quantity + opp.makerRebate - opp.takerCost ∧
    0 < opp.expected_profit ∧
    opp.quantity =
      min (min ((mb.best_ask_quantity).getD 0) ((tb.best_bid_quantity).getD 0))
        cfg.strategy.max_position_size ∧
    cfg.execution.min_order_size < opp.quantity ∧
    ∃ ask bid, mb.best_ask = some ask ∧ tb.best_bid = some bid ∧ ask < bid ∧
      opp.maker_price = ask ∧ opp.taker_price = bid := by
  unfold futuresScenarioMakerBuy at h
  cases hb : mb.best_ask with
  | none => rw [hb] at h; simp at h
  | some ask =>
    cases ha : tb.best_bid with
    | none => rw [hb, ha] at h; simp at h
    | some bid =>
      rw [hb, ha] at h
      dsimp only at h
      split_ifs at h with h1 h2 h3 h4 <;>
        first
        | exact absurd h (List.not_mem_nil _)
        | (rw [List.mem_singleton] at h
           subst h
           exact ⟨rfl, rfl, rfl, rfl, h4, rfl, h3, ask, bid, rfl, rfl, h1, rfl, rfl⟩)

theorem mem_spotOpportunityBuyBinance (cfg : ArbitrageConfig) (bb yb : OrderBook)
    (opp : ArbitrageOpportunity) (h : opp ∈ spotOpportunityBuyBinance cfg bb yb) :
    opp.buy_exchange = .Binance ∧
    opp.sell_exchange = .Bybit ∧
    opp.quantity =
      min (min ((bb.best_ask_quantity).getD 0) ((yb.best_bid_quantity).getD 0))
        cfg.strategy.max_position_size ∧
    cfg.execution.min_order_size < opp.quantity ∧
    opp.expected_profit = (opp.sell_price - opp.buy_price) * opp.quantity ∧
    ∃ a b, bb.best_ask = some a ∧ yb.best_bid = some b ∧ a < b ∧
      opp.buy_price = a ∧ opp.sell_price = b := by
  unfold spotOpportunityBuyBinance at h
  cases hb : bb.best_ask with
  | none => rw [hb] at h; simp at h
  | some ask =>
    cases ha : yb.best_bid with
    | none => rw [hb, ha] at h; simp at h
    | some bid =>
      rw [hb, ha] at h
      dsimp only at h
      split_ifs at h with h1 h2 h3 <;>
        first
        | exact absurd h (List.not_mem_nil _)
        | (rw [List.mem_singleton] at h
           subst h
           exact ⟨rfl, rfl, rfl, h3, rfl, ask, bid, rfl, rfl, h1, rfl, rfl⟩)

theorem mem_spotOpportunityBuyBybit (cfg : ArbitrageConfig) (bb yb : OrderBook)
    (opp : ArbitrageOpportunity) (h : opp ∈ spotOpportunityBuyBybit cfg bb yb) :
    opp.buy_exchange = .Bybit ∧
    opp.sell_exchange = .Binance ∧
    opp.quantity =
      min (min ((yb.best_ask_quantity).getD 0) ((bb.best_bid_quantity).getD 0))
        cfg.strategy.max_position_size ∧
    cfg.execution.min_order_size < opp.quantity ∧
    opp.expected_profit = (opp.sell_price - opp.buy_price) * opp.quantity ∧
    ∃ a b, yb.best_ask = some a ∧ bb.best_bid = some b ∧ a < b ∧
      opp.buy_price = a ∧ opp.sell_price = b := by
  unfold spotOpportunityBuyBybit at h
  cases hb : yb.best_ask with
  | none => rw [hb] at h; simp at h
  | some ask =>
    cases ha : bb.best_bid with
    | none => rw [hb, ha] at h; simp at h
    | some bid =>
      rw [hb, ha] at h
      dsimp only at h
      split_ifs at h with h1 h2 h3 <;>
        first
        | exact absurd h (List.not_mem_nil _)
        | (rw [List.mem_singleton] at h
           subst h
           exact ⟨rfl, rfl, rfl, h3, rfl, ask, bid, rfl, rfl, h1, rfl, rfl⟩)

theorem spot_detect_eval :
    detect_opportunities cfgW (some bookA) (some bookB) = [oppSpotW] := by
  have h1 : spotOpportunityBuyBinance cfgW bookA bookB = [] := by
    norm_num [spotOpportunityBuyBinance, bookA, bookB, OrderBook.best_bid, OrderBook.best_ask]
  have h2 : spotOpportunityBuyBybit cfgW bookA bookB = [oppSpotW] := by
    norm_num [spotOpportunityBuyBybit, bookA, bookB, OrderBook.best_bid, OrderBook.best_ask,
      OrderBook.best_bid_quantity, OrderBook.best_ask_quantity, cfgW, rustRound, oppSpotW]
  simp only [detect_opportunities]
  rw [h1, h2, List.nil_append]

theorem futures_analyze_eval :
    analyze_maker_taker_opportunity cfgW "BTCUSDT" makerBookW takerBookW = [oppFutW] := by
  have h1 : futuresScenarioMakerSell cfgW "BTCUSDT" makerBookW takerBookW = [oppFutW] := by
    norm_num [futuresScenarioMakerSell, makerBookW, takerBookW, OrderBook.best_bid,
      OrderBook.best_ask, OrderBook.best_bid_quantity, OrderBook.best_ask_quantity, cfgW,
      rustRound, ratAbs, oppFutW, calculate_risk_score]
  have h2 : futuresScenarioMakerBuy cfgW "BTCUSDT" makerBookW takerBookW = [] := by
    norm_num [futuresScenarioMakerBuy, makerBookW, takerBookW, OrderBook.best_bid,
      OrderBook.best_ask, OrderBook.best_bid_quantity, OrderBook.best_ask_quantity, cfgW]
  unfold analyze_maker_taker_opportunity
  rw [h1, h2, List.append_nil]

/-- Claim C2: every opportunity the futures detector emits carries the
venue-specific fee constants (Bybit maker rebate −0.025%, Binance taker fee
0.04%), its expected profit equals
spread × quantity + maker_rebate − taker_cost, and a candidate whose
so-computed profit is not positive is never emitted; the spot detector has
no fee constants (fees absent, i.e. zero), its emitted profit is
spread × quantity, and — for a non-negative configured minimum order size —
it too never emits a non-positive profit. -/
theorem futures_profit_fee_adjusted :
    (∀ (cfg : ArbitrageConfig) (symbol : String) (maker_book taker_book : OrderBook),
      ∀ opp ∈ analyze_maker_taker_opportunity cfg symbol maker_book taker_book,
        opp.maker_fee = -(25 / 100000) ∧
        opp.taker_fee = 4 / 10000 ∧
        opp.expected_profit =
          (opp.sellPrice - opp.buyPrice) * opp.quantity + opp.makerRebate - opp.takerCost ∧
        0 < opp.expected_profit) ∧
    (∀ (cfg : ArbitrageConfig) (bb yb : OrderBook), 0 ≤ cfg.execution.min_order_size →
      ∀ opp ∈ detect_opportunities cfg (some bb) (some yb),
        opp.expected_profit = (opp.sell_price - opp.buy_price) * opp.quantity ∧
        0 < opp.expected_profit) := by
  constructor
  · intro cfg symbol mb tb opp hm
    unfold analyze_maker_taker_opportunity at hm
    rw [List.mem_append] at hm
    rcases hm with hm | hm
    · obtain ⟨_, hf, ht, hp, hpos, _, _, _⟩ :=
        mem_futuresScenarioMakerSell cfg symbol mb tb opp hm
      exact ⟨hf, ht, hp, hpos⟩
    · obtain ⟨_, hf, ht, hp, hpos, _, _, _⟩ :=
        mem_futuresScenarioMakerBuy cfg symbol mb tb opp hm
      exact ⟨hf, ht, hp, hpos⟩
  · intro cfg bb yb hmin opp hm
    unfold detect_opportunities at hm
    rw [List.mem_append] at hm
    have key : opp.expected_profit = (opp.sell_price - opp.buy_price) * opp.quantity ∧
        0 < opp.quantity ∧ opp.buy_price < opp.sell_price := by
      rcases hm with hm | hm
      · obtain ⟨_, _, _, hlt, hp, a, b, _, _, hab, hbuy, hsell⟩ :=
          mem_spotOpportunityBuyBinance cfg bb yb opp hm
        exact ⟨hp, lt_of_le_of_lt hmin hlt, by rw [hbuy, hsell]; exact hab⟩
      · obtain ⟨_, _, _, hlt, hp, a, b, _, _, hab, hbuy, hsell⟩ :=
          mem_spotOpportunityBuyBybit cfg bb yb opp hm
        exact ⟨hp, lt_of_le_of_lt hmin hlt, by rw [hbuy, hsell]; exact hab⟩
    obtain ⟨hp, hq, hps⟩ := key
    refine ⟨hp, ?_⟩
    rw [hp]
    exact mul_pos (by linarith) hq

/-- Witness for claim C2: the fee-adjusted profit property at the concrete
emitted futures opportunity, and the fee-free profit property at the
concrete emitted spot opportunity. -/
theorem futures_profit_fee_adjusted_witness :
    (oppFutW.maker_fee = -(25 / 100000) ∧
      oppFutW.taker_fee = 4 / 10000 ∧
      oppFutW.expected_profit =
        (oppFutW.sellPrice - oppFutW.buyPrice) * oppFutW.quantity + oppFutW.makerRebate -
          oppFutW.takerCost ∧
      0 < oppFutW.expected_profit) ∧
    (oppSpotW.expected_profit = (oppSpotW.sell_price - oppSpotW.buy_price) * oppSpotW.quantity ∧
      0 < oppSpotW.expected_profit) :=
  ⟨futures_profit_fee_adjusted.1 cfgW "BTCUSDT" makerBookW takerBookW oppFutW
      (by rw [futures_analyze_eval]; exact List.mem_singleton.mpr rfl),
    futures_profit_fee_adjusted.2 cfgW bookA bookB (by norm_num [cfgW]) oppSpotW
      (by rw [spot_detect_eval]; exact List.mem_singleton.mpr rfl)⟩

/-- Claim C3: every emitted opportunity's quantity is the minimum of the
top-of-book quantities on the two participating sides and the configured
maximum position size; a candidate whose capped quantity is not above the
configured minimum order size is not emitted, so every emitted opportunity
satisfies min_order_size ≤ quantity ≤ max_position_size.  This holds for
the spot detector and for the futures detector. -/
theorem detect_quantity_bounds :
    (∀ (cfg : ArbitrageConfig) (bb yb : OrderBook),
      ∀ opp ∈ detect_opportunities cfg (some bb) (some yb),
        (opp.quantity =
          match opp.buy_exchange with
          | .Binance =>
            min (min ((bb.best_ask_quantity).getD 0) ((yb.best_bid_quantity).getD 0))
              cfg.strategy.max_position_size
          | .Bybit =>
            min (min ((yb.best_ask_quantity).getD 0) ((bb.best_bid_quantity).getD 0))
              cfg.strategy.max_position_size) ∧
        cfg.execution.min_order_size ≤ opp.quantity ∧
        opp.quantity ≤ cfg.strategy.max_position_size) ∧
    (∀ (cfg : ArbitrageConfig) (symbol : String) (mb tb : OrderBook),
      ∀ opp ∈ analyze_maker_taker_opportunity cfg symbol mb tb,
        (opp.quantity =
          match opp.maker_side with
          | .Sell =>
            min (min ((mb.best_bid_quantity).getD 0) ((tb.best_ask_quantity).getD 0))
              cfg.strategy.max_position_size
          | .Buy =>
            min (min ((mb.best_ask_quantity).getD 0) ((tb.best_bid_quantity).getD 0))
              cfg.strategy.max_position_size) ∧
        cfg.execution.min_order_size ≤ opp.quantity ∧
        opp.quantity ≤ cfg.strategy.max_position_size) := by
  constructor
  · intro cfg bb yb opp hm
    unfold detect_opportunities at hm
    rw [List.mem_append] at hm
    rcases hm with hm | hm
    · obtain ⟨hbx, _, hq, hlt, _, _⟩ := mem_spotOpportunityBuyBinance cfg bb yb opp hm
      refine ⟨?_, le_of_lt hlt, ?_⟩
      · rw [hbx, hq]
      · rw [hq]; exact min_le_right _ _
    · obtain ⟨hbx, _, hq, hlt, _, _⟩ := mem_spotOpportunityBuyBybit cfg bb yb opp hm
      refine ⟨?_, le_of_lt hlt, ?_⟩
      · rw [hbx, hq]
      · rw [hq]; exact min_le_right _ _
  · intro cfg symbol mb tb opp hm
    unfold analyze_maker_taker_opportunity at hm
    rw [List.mem_append] at hm
    rcases hm with hm | hm
    · obtain ⟨hside, _, _, _, _, hq, hlt, _⟩ := mem_futuresScenarioMakerSell cfg symbol mb tb opp hm
      refine ⟨?_, le_of_lt hlt, ?_⟩
      · rw [hside, hq]
      · rw [hq]; exact min_le_right _ _
    · obtain ⟨hside, _, _, _, _, hq, hlt, _⟩ := mem_futuresScenarioMakerBuy cfg symbol mb tb opp hm
      refine ⟨?_, le_of_lt hlt, ?_⟩
      · rw [hside, hq]
      · rw [hq]; exact min_le_right _ _

/-- Claim C1: with minimum spread 5 bps, max position at least 1.0 and min
order size below 1.0, any pair of stored books where Binance best bid is
50100 × 1.0 and Bybit best ask is 50000 × 1.0, not crossed in the other
direction, yields exactly one spot opportunity: spread 20 bps, quantity 1.0,
expected profit 100 (the spot detector applies no fees). -/
theorem spot_scenario_single_opportunity (cfg : ArbitrageConfig) (bb yb : OrderBook)
    (h5 : cfg.strategy.min_spread_bps = 5)
    (hmax : 1 ≤ cfg.strategy.max_position_size)
    (hmin : cfg.execution.min_order_size < 1)
    (hbid : bb.best_bid = some 50100) (hbidq : bb.best_bid_quantity = some 1)
    (hask : yb.best_ask = some 50000) (haskq : yb.best_ask_quantity = some 1)
    (hnc : crossedBuyBinance bb yb = false) :
    detect_opportunities cfg (some bb) (some yb) =
      [{ symbol := cfg.strategy.symbol
         buy_exchange := .Bybit
         sell_exchange := .Binance
         buy_price := 50000
         sell_price := 50100
         quantity := 1
         spread_bps := 20
         expected_profit := 100 }] := by
  have hBin : spotOpportunityBuyBinance cfg bb yb = [] := by
    cases hcase : spotOpportunityBuyBinance cfg bb yb with
    | nil => rfl
    | cons o t =>
      exfalso
      have hm : o ∈ spotOpportunityBuyBinance cfg bb yb := by
        rw [hcase]; exact List.mem_cons_self o t
      obtain ⟨_, _, _, _, _, a, b, hA, hB, hab, _, _⟩ :=
        mem_spotOpportunityBuyBinance cfg bb yb o hm
      unfold crossedBuyBinance at hnc
      rw [hA, hB] at hnc
      simp at hnc
      exact absurd hab (not_lt.mpr hnc)
  have hq1 : min ((1 : ℚ)) cfg.strategy.max_position_size = 1 := min_eq_left hmax
  have hlt1 : cfg.execution.min_order_size < cfg.strategy.max_position_size :=
    hmin.trans_le hmax
  have hByb : spotOpportunityBuyBybit cfg bb yb =
      [{ symbol := cfg.strategy.symbol
         buy_exchange := .Bybit
         sell_exchange := .Binance
         buy_price := 50000
         sell_price := 50100
         quantity := 1
         spread_bps := 20
         expected_profit := 100 }] := by
    unfold spotOpportunityBuyBybit
    rw [hask, hbid]
    dsimp only
    rw [hbidq, haskq, h5]
    norm_num [rustRound, hq1, hmin, hlt1]
  simp only [detect_opportunities]
  rw [hBin, hByb, List.nil_append]

/-- Witness for claim C1: the scenario at the concrete configuration and
books. -/
theorem spot_scenario_single_opportunity_witness :
    detect_opportunities cfgW (some bookA) (some bookB) =
      [{ symbol := cfgW.strategy.symbol
         buy_exchange := .Bybit
         sell_exchange := .Binance
         buy_price := 50000
         sell_price := 50100
         quantity := 1
         spread_bps := 20
         expected_profit := 100 }] :=
  spot_scenario_single_opportunity cfgW bookA bookB rfl (by norm_num [cfgW])
    (by norm_num [cfgW]) rfl rfl rfl rfl rfl

/-- Witness for claim C3: the quantity bounds at the concrete emitted spot
opportunity. -/
theorem detect_quantity_bounds_witness :
    (oppSpotW.quantity =
      match oppSpotW.buy_exchange with
      | .Binance =>
        min (min ((bookA.best_ask_quantity).getD 0) ((bookB.best_bid_quantity).getD 0))
          cfgW.strategy.max_position_size
      | .Bybit =>
        min (min ((bookB.best_ask_quantity).getD 0) ((bookA.best_bid_quantity).getD 0))
          cfgW.strategy.max_position_size) ∧
    cfgW.execution.min_order_size ≤ oppSpotW.quantity ∧
    oppSpotW.quantity ≤ cfgW.strategy.max_position_size :=
  detect_quantity_bounds.1 cfgW bookA bookB oppSpotW
    (by rw [spot_detect_eval]; exact List.mem_singleton.mpr rfl)

theorem place_order_state_core (cfg : ArbitrageConfig) (st : LiveState)
    (connResult : Except ArbErr OrderResponse) (exchange : Exchange) (order : LimitOrder) :
    (place_order cfg st connResult exchange order).state.emergency_shutdown =
        st.emergency_shutdown ∧
    (place_order cfg st connResult exchange order).state.positions = st.positions ∧
    (place_order cfg st connResult exchange order).state.connectors = st.connectors := by
  unfold place_order
  by_cases hs : st.emergency_shutdown
  · simp [hs]
  · cases hR : check_risk_limits cfg st.positions order with
    | error e => simp [hs, hR]
    | ok u =>
      by_cases hm : exchange ∈ st.connectors
      · cases connResult <;> simp [hs, hR, hm]
      · simp [hs, hR, hm]

theorem place_order_result_congr (cfg : ArbitrageConfig) (s1 s2 : LiveState)
    (connResult : Except ArbErr OrderResponse) (exchange : Exchange) (order : LimitOrder)
    (h1 : s2.emergency_shutdown = s1.emergency_shutdown)
    (h2 : s2.positions = s1.positions) (h3 : s2.connectors = s1.connectors) :
    (place_order cfg s2 connResult exchange order).result =
      (place_order cfg s1 connResult exchange order).result := by
  unfold place_order
  rw [h1, h2, h3]
  by_cases hs : s1.emergency_shutdown
  · simp [hs]
  · cases hR : check_risk_limits cfg s1.positions order with
    | error e => simp [hs, hR]
    | ok u =>
      by_cases hm : exchange ∈ s1.connectors
      · cases connResult <;> simp [hs, hR, hm]
      · simp [hs, hR, hm]

theorem retryGo_spec (cfg : ArbitrageConfig) (connResults : ℕ → Except ArbErr OrderResponse)
    (exchange : Exchange) (order : LimitOrder) (st0 : LiveState) :
    ∀ (len start : ℕ) (st : LiveState), 1 ≤ len →
      st.emergency_shutdown = st0.emergency_shutdown → st.positions = st0.positions →
      st.connectors = st0.connectors →
      ∀ ro, ro = retryGo cfg connResults exchange order (List.range' start len) st →
        (1 ≤ ro.attemptsMade ∧ ro.attemptsMade ≤ len) ∧
        ro.sleeps_ms = (List.range' start (ro.attemptsMade - 1)).map (fun k => 1000 * k) ∧
        (∀ j, j + 1 < ro.attemptsMade →
          exceptHasError (attemptResult cfg st0 connResults exchange order (start + j)) = true) ∧
        ro.result =
          some (attemptResult cfg st0 connResults exchange order
            (start + (ro.attemptsMade - 1))) ∧
        (ro.attemptsMade = len ∨
          ∃ r, attemptResult cfg st0 connResults exchange order (start + (ro.attemptsMade - 1)) =
            .ok r) := by
  intro len
  induction len with
  | zero => intro start st h; exact absurd h (by omega)
  | succ m ih =>
    intro start st _ hS hP hC ro hro
    rw [List.range'_succ] at hro
    have hcongr : (place_order cfg st (connResults start) exchange order).result =
        attemptResult cfg st0 connResults exchange order start :=
      place_order_result_congr cfg st0 st (connResults start) exchange order hS hP hC
    rcases Nat.eq_zero_or_pos m with hm | hm
    · subst hm
      rw [List.range'_zero, retryGo] at hro
      subst hro
      refine ⟨⟨le_refl 1, le_refl 1⟩, ?_, ?_, ?_, Or.inl rfl⟩
      · show ([] : List ℕ) = (List.range' start (1 - 1)).map fun k => 1000 * k
        rw [show (1 : ℕ) - 1 = 0 from rfl, List.range'_zero, List.map_nil]
      · intro j hj
        have hj1 : j + 1 < 1 := hj
        exact absurd hj1 (by omega)
      · show some (place_order cfg st (connResults start) exchange order).result = _
        rw [show start + (1 - 1) = start from by omega, hcongr]
    · obtain ⟨m', rfl⟩ : ∃ m', m = m' + 1 := ⟨m - 1, by omega⟩
      rw [List.range'_succ, retryGo] at hro
      cases hpo : (place_order cfg st (connResults start) exchange order).result with
      | ok r =>
        rw [hpo] at hro
        dsimp only at hro
        subst hro
        refine ⟨⟨le_refl 1, by show (1 : ℕ) ≤ m' + 1 + 1; omega⟩, ?_, ?_, ?_, Or.inr ⟨r, ?_⟩⟩
        · show ([] : List ℕ) = (List.range' start (1 - 1)).map fun k => 1000 * k
          rw [show (1 : ℕ) - 1 = 0 from rfl, List.range'_zero, List.map_nil]
        · intro j hj
          have hj1 : j + 1 < 1 := hj
          exact absurd hj1 (by omega)
        · show some (Except.ok r) = _
          rw [show start + (1 - 1) = start from by omega, ← hcongr, hpo]
        · rw [show start + (1 - 1) = start from by omega, ← hcongr, hpo]
      | error e =>
        rw [hpo] at hro
        dsimp only at hro
        have hback : (start + 1) :: List.range' (start + 1 + 1) m' =
            List.range' (start + 1) (m' + 1) := (List.range'_succ _ _ _).symm
        rw [hback] at hro
        obtain ⟨c1, c2, c3⟩ :=
          place_order_state_core cfg st (connResults start) exchange order
        obtain ⟨⟨hn1, hn2⟩, hsleep, hfail, hres, hlast⟩ :=
          ih (start + 1) (place_order cfg st (connResults start) exchange order).state
            (by omega) (c1.trans hS) (c2.trans hP) (c3.trans hC)
            (retryGo cfg connResults exchange order (List.range' (start + 1) (m' + 1))
              (place_order cfg st (connResults start) exchange order).state) rfl
        set ro' := retryGo cfg connResults exchange order (List.range' (start + 1) (m' + 1))
          (place_order cfg st (connResults start) exchange order).state with hro'
        subst hro
        refine ⟨⟨by dsimp only; omega, by dsimp only; omega⟩, ?_, ?_, ?_, ?_⟩
        · show 1000 * start :: ro'.sleeps_ms =
            (List.range' start ((ro'.attemptsMade + 1) - 1)).map fun k => 1000 * k
          rw [hsleep]
          obtain ⟨n'', hn''⟩ : ∃ n'', ro'.attemptsMade = n'' + 1 :=
            ⟨ro'.attemptsMade - 1, by omega⟩
          rw [hn'']
          rw [show n'' + 1 + 1 - 1 = n'' + 1 from by omega,
            show n'' + 1 - 1 = n'' from by omega, List.range'_succ, List.map_cons]
        · intro j hj
          have hj1 : j + 1 < ro'.attemptsMade + 1 := hj
          rcases Nat.eq_zero_or_pos j with hj0 | hj0
          · subst hj0
            rw [Nat.add_zero, ← hcongr, hpo]
            rfl
          · obtain ⟨j', rfl⟩ : ∃ j', j = j' + 1 := ⟨j - 1, by omega⟩
            have hstep := hfail j' (by omega)
            -- attempt index start + 1 + j' equals start + (j' + 1)
            rwa [show start + 1 + j' = start + (j' + 1) from by omega] at hstep
        · show ro'.result = some (attemptResult cfg st0 connResults exchange order
            (start + (ro'.attemptsMade + 1 - 1)))
          rw [hres, show start + 1 + (ro'.attemptsMade - 1) =
            start + (ro'.attemptsMade + 1 - 1) from by omega]
        · rcases hlast with hlast | ⟨r, hr⟩
          · exact Or.inl (by dsimp only; omega)
          · refine Or.inr ⟨r, ?_⟩
            rwa [show start + 1 + (ro'.attemptsMade - 1) =
              start + (ro'.attemptsMade + 1 - 1) from by omega] at hr

/-- Claim C6: with `max_retry_attempts = N ≥ 1`, `place_order_with_retry`
makes between 1 and N `place_order` attempts, every attempt before the last
one made fails, the returned value is the result of the last attempt made
(so the first success is returned as soon as it occurs, and if all N
attempts fail the error of attempt N is returned), the loop stops early only
on a success, and the sleeps performed are exactly `1000ms × k` after each
failed attempt `k` except the final one (linear backoff, no sleep after the
last attempt). -/
theorem place_order_with_retry_spec (cfg : ArbitrageConfig) (st : LiveState)
    (connResults : ℕ → Except ArbErr OrderResponse) (exchange : Exchange)
    (order : LimitOrder) (h : 1 ≤ cfg.execution.max_retry_attempts) :
    ∀ ro, ro = place_order_with_retry cfg st connResults exchange order →
      (1 ≤ ro.attemptsMade ∧ ro.attemptsMade ≤ cfg.execution.max_retry_attempts) ∧
      ro.sleeps_ms = (List.range' 1 (ro.attemptsMade - 1)).map (fun k => 1000 * k) ∧
      (∀ k, 1 ≤ k → k < ro.attemptsMade →
        exceptHasError (attemptResult cfg st connResults exchange order k) = true) ∧
      ro.result = some (attemptResult cfg st connResults exchange order ro.attemptsMade) ∧
      (ro.attemptsMade = cfg.execution.max_retry_attempts ∨
        ∃ r, attemptResult cfg st connResults exchange order ro.attemptsMade = .ok r) := by
  intro ro hro
  obtain ⟨⟨hn1, hn2⟩, hsleep, hfail, hres, hlast⟩ :=
    retryGo_spec cfg connResults exchange order st cfg.execution.max_retry_attempts 1 st h
      rfl rfl rfl ro hro
  have hidx : 1 + (ro.attemptsMade - 1) = ro.attemptsMade := by omega
  rw [hidx] at hres hlast
  refine ⟨⟨hn1, hn2⟩, hsleep, ?_, hres, hlast⟩
  intro k hk1 hk2
  have hstep := hfail (k - 1) (by omega)
  rwa [show 1 + (k - 1) = k from by omega] at hstep

/-- Witness for claim C6: the concrete run in which attempt 1 fails with a
connection error and attempt 2 succeeds — two attempts, one 1000 ms sleep,
the success returned. -/
theorem place_order_with_retry_spec_witness :
    (1 ≤ (place_order_with_retry cfgW liveStateCleanW connResultsW .Binance
        orderSmallW).attemptsMade ∧
      (place_order_with_retry cfgW liveStateCleanW connResultsW .Binance
        orderSmallW).attemptsMade ≤ cfgW.execution.max_retry_attempts) ∧
    (place_order_with_retry cfgW liveStateCleanW connResultsW .Binance orderSmallW).sleeps_ms =
      (List.range' 1 ((place_order_with_retry cfgW liveStateCleanW connResultsW .Binance
        orderSmallW).attemptsMade - 1)).map (fun k => 1000 * k) ∧
    (∀ k, 1 ≤ k →
      k < (place_order_with_retry cfgW liveStateCleanW connResultsW .Binance
        orderSmallW).attemptsMade →
      exceptHasError (attemptResult cfgW liveStateCleanW connResultsW .Binance orderSmallW k) =
        true) ∧
    (place_order_with_retry cfgW liveStateCleanW connResultsW .Binance orderSmallW).result =
      some (attemptResult cfgW liveStateCleanW connResultsW .Binance orderSmallW
        (place_order_with_retry cfgW liveStateCleanW connResultsW .Binance
          orderSmallW).attemptsMade) ∧
    ((place_order_with_retry cfgW liveStateCleanW connResultsW .Binance
        orderSmallW).attemptsMade = cfgW.execution.max_retry_attempts ∨
      ∃ r, attemptResult cfgW liveStateCleanW connResultsW .Binance orderSmallW
        (place_order_with_retry cfgW liveStateCleanW connResultsW .Binance
          orderSmallW).attemptsMade = .ok r) :=
  place_order_with_retry_spec cfgW liveStateCleanW connResultsW .Binance orderSmallW
    (by decide) _ rfl

theorem place_order_risk_reject (cfg : ArbitrageConfig) (st : LiveState)
    (connResult : Except ArbErr OrderResponse) (exchange : Exchange) (order : LimitOrder)
    (e : ArbErr) (hs : st.emergency_shutdown = false)
    (he : check_risk_limits cfg st.positions order = .error e) :
    place_order cfg st connResult exchange order = ⟨.error e, st, false⟩ := by
  unfold place_order
  simp [hs, he]

theorem retryGo_risk_all_reject (cfg : ArbitrageConfig)
    (connResults : ℕ → Except ArbErr OrderResponse) (exchange : Exchange)
    (order : LimitOrder) (st : LiveState) (e : ArbErr)
    (hs : st.emergency_shutdown = false)
    (he : check_risk_limits cfg st.positions order = .error e) :
    ∀ l : List ℕ, l ≠ [] →
      retryGo cfg connResults exchange order l st =
        ⟨some (.error e), st, l.length, (l.dropLast).map fun k => 1000 * k⟩ := by
  intro l
  induction l with
  | nil => intro h; exact absurd rfl h
  | cons a t ih =>
    intro _
    cases t with
    | nil =>
      rw [retryGo, place_order_risk_reject cfg st (connResults a) exchange order e hs he]
      rfl
    | cons b t' =>
      rw [retryGo, place_order_risk_reject cfg st (connResults a) exchange order e hs he]
      dsimp only
      rw [ih (by simp)]
      simp [List.dropLast]

/-- Counterexample for claim C7: with the 0.05-position risk scenario and
three configured retries, the first `place_order` attempt is rejected with a
RiskManagement error, yet `place_order_with_retry` still makes three
attempts — a risk-rejected order is retried, contradicting the claim that no
further attempt is made. -/
theorem risk_rejection_retried_counterexample :
    (∃ m, (place_order cfgW liveStateRiskW (connResultsErrW 1) .Binance orderRiskW).result =
      .error (.riskManagement m)) ∧
    (place_order_with_retry cfgW liveStateRiskW connResultsErrW .Binance
      orderRiskW).attemptsMade = 3 := by
  have hpos : ratAbs (new_net_position liveStateRiskW.positions orderRiskW) >
      cfgW.strategy.max_position_size := by
    norm_num [new_net_position, ratAbs, positionW, orderRiskW, cfgW, liveStateRiskW]
  have herr : check_risk_limits cfgW liveStateRiskW.positions orderRiskW =
      .error (.riskManagement "Position size exceeds limit") := by
    simp [check_risk_limits, hpos]
  constructor
  · refine ⟨"Position size exceeds limit", ?_⟩
    rw [place_order_risk_reject cfgW liveStateRiskW (connResultsErrW 1) .Binance orderRiskW _
      rfl herr]
  · unfold place_order_with_retry
    rw [retryGo_risk_all_reject cfgW connResultsErrW .Binance orderRiskW liveStateRiskW _
      rfl herr _ (by simp [cfgW])]
    simp [cfgW]

/-- Claim C7 (amended): a RiskManagement rejection is indeed produced before
any venue-connector call — the connector is never invoked on a risk-rejected
order — but `place_order_with_retry` does not special-case RiskManagement
errors: it retries a risk-rejected order like any other failure, making
exactly `max_retry_attempts` attempts, each again rejected before any
connector call, leaving the state unchanged and returning the
RiskManagement error. -/
theorem risk_rejection_before_connector_but_retried (cfg : ArbitrageConfig) (st : LiveState)
    (connResults : ℕ → Except ArbErr OrderResponse) (exchange : Exchange)
    (order : LimitOrder) (hN : 1 ≤ cfg.execution.max_retry_attempts)
    (hs : st.emergency_shutdown = false)
    (he : ∃ m, check_risk_limits cfg st.positions order = .error (.riskManagement m)) :
    (∀ k, (place_order cfg st (connResults k) exchange order).connector_called = false ∧
      ∃ m, (place_order cfg st (connResults k) exchange order).result =
        .error (.riskManagement m)) ∧
    ∀ ro, ro = place_order_with_retry cfg st connResults exchange order →
      ro.attemptsMade = cfg.execution.max_retry_attempts ∧
      ro.finalState = st ∧
      ∃ m, ro.result = some (.error (.riskManagement m)) := by
  obtain ⟨m, hm⟩ := he
  constructor
  · intro k
    rw [place_order_risk_reject cfg st (connResults k) exchange order _ hs hm]
    exact ⟨rfl, m, rfl⟩
  · intro ro hro
    unfold place_order_with_retry at hro
    rw [retryGo_risk_all_reject cfg connResults exchange order st _ hs hm _
      (by simp [List.range'_eq_nil]; omega)] at hro
    subst hro
    refine ⟨?_, rfl, m, rfl⟩
    simp [List.length_range']

/-- Witness for claim C7 (amended): the amended property at the concrete
risk scenario. -/
theorem risk_rejection_before_connector_but_retried_witness :
    (∀ k, (place_order cfgW liveStateRiskW (connResultsErrW k) .Binance
        orderRiskW).connector_called = false ∧
      ∃ m, (place_order cfgW liveStateRiskW (connResultsErrW k) .Binance orderRiskW).result =
        .error (.riskManagement m)) ∧
    ∀ ro, ro = place_order_with_retry cfgW liveStateRiskW connResultsErrW .Binance orderRiskW →
      ro.attemptsMade = cfgW.execution.max_retry_attempts ∧
      ro.finalState = liveStateRiskW ∧
      ∃ m, ro.result = some (.error (.riskManagement m)) :=
  risk_rejection_before_connector_but_retried cfgW liveStateRiskW connResultsErrW .Binance
    orderRiskW (by decide) rfl
    ⟨"Position size exceeds limit", by
      have hpos : ratAbs (new_net_position liveStateRiskW.positions orderRiskW) >
          cfgW.strategy.max_position_size := by
        norm_num [new_net_position, ratAbs, positionW, orderRiskW, cfgW, liveStateRiskW]
      simp [check_risk_limits, hpos]⟩

/-- Claim C8 (code bug): the repository's own round-trip scenario — a fully
filled buy of 0.1 at 50000 followed by a fully filled sell of 0.1 at the
higher price 50100, with zero slippage draws and the simulator's default
execution knobs (fees enabled at 0.1% per side) — leaves the position at 0
as claimed, but yields total_pnl = −0.01 < 0: the 10.01 in fees exceeds the
10.00 gross gain, contradicting the claimed `total_pnl > 0`. -/
theorem dry_run_round_trip_fee_loss :
    roundTripRun = some (1 / 10, 50000, 1 / 10, 50100, 0, -(1 / 100)) ∧
    (50000 : ℚ) < 50100 ∧ -(1 / 100 : ℚ) < 0 := by
  refine ⟨?_, by norm_num, by norm_num⟩
  have e1 : ("BTC" == "USDT") = false := by decide
  have e2 : ("ETH" == "USDT") = false := by decide
  have e3 : ("ETH" == "BTC") = false := by decide
  have p1 : ¬("BTC" = "USDT" ∨ "BTC" = "USD") := by decide
  have p2 : ¬("ETH" = "USDT" ∨ "ETH" = "USD") := by decide
  norm_num [e1, e2, e3, p1, p2, roundTripRun, sim_execute_order, simExecutionConfigDefault,
    initialSimState,
    initialPortfolio, buyOrderRT, sellOrderRT, drawsZero, cfgW, calculate_execution_price,
    calculate_fill_quantity, calculate_fees, update_portfolio, update_metrics, findBook,
    Portfolio.update_position, Portfolio.update_balance, Portfolio.get_position,
    Portfolio.get_balance, upsert, sim_total_pnl, Portfolio.calculate_pnl, List.lookup]
